import Mathlib

/-!
Verification of the claude-error-learning repository.

Shallow embedding of the Python sources:
  src/hooks/command-validator.py  (allowlist + rule matching, fail-open entry point)
  src/hooks/error-curator.py      (signature extraction, pairing, rule generation,
                                   pack merging, threshold-gated auto-curation)
  src/hooks/fix-tracker.py        (error/fix pairing at command time, log rewrite)
  src/manage-packs.py             (second, independent pack merger)

Strings are modeled over their character lists (ASCII inputs; Python's
str.lower, str.split, str.strip, substring tests and the few concrete
regular expressions used by the sources are translated character by
character).  Python's salted `hash` builtin is modeled as an arbitrary
function parameter, and `re.search` for arbitrary user-supplied rule
patterns is modeled as an oracle parameter of the validator; the concrete
regexes hard-coded in the curator are compiled to explicit matchers below.
-/

namespace ErrorLearning

/-! ### Python string primitives -/

/-- Whitespace for Python's `str.split()` / regex `\s` (ASCII range). -/
def pyIsSpace (c : Char) : Bool :=
  c = ' ' || c = '\t' || c = '\n' || c = '\r' || c = '\x0b' || c = '\x0c'

/-- Model of `str.lower()` on ASCII text. -/
def lowerChars (l : List Char) : List Char := l.map Char.toLower

/-- Python's `needle in hay` substring test. -/
def containsSub (needle : List Char) : List Char → Bool
  | [] => needle.isEmpty
  | hay@(_ :: rest) => needle.isPrefixOf hay || containsSub needle rest

/-- Model of `p.isPrefixOf s` on strings, via character lists (`str.startswith`). -/
def strPre (p s : String) : Bool := p.data.isPrefixOf s.data

/-- Model of `needle in hay` on strings. -/
def strContains (needle hay : String) : Bool := containsSub needle.data hay.data

/-- Model of `command.split()[0] if command.split() else ""`: first whitespace-separated
word of a Python string (empty when the string is all whitespace). -/
def firstWord (cmd : List Char) : List Char :=
  (cmd.dropWhile pyIsSpace).takeWhile (fun c => !pyIsSpace c)

def firstWordStr (cmd : String) : String := String.mk (firstWord cmd.data)

/-- Model of `str.strip()`: trim whitespace from both ends. -/
def pyStrip (l : List Char) : List Char :=
  ((l.dropWhile pyIsSpace).reverse.dropWhile pyIsSpace).reverse

/-- One character under Python 3.7+ `re.escape`: the characters regex treats
as special get a backslash, everything else passes through. -/
def pyReEscapeChar (c : Char) : List Char :=
  if ("()[]{}?*+-|^$\\.&~# \t\n\r\x0b\x0c".data).contains c then ['\\', c] else [c]

/-- Python 3.7+ `re.escape`. -/
def pyReEscape (l : List Char) : List Char := (l.map pyReEscapeChar).flatten

/-- Model of `s.split(sep, maxsplit)` helper: break a list at the first occurrence of
`sep`, returning the part before and the part after, or `none`. -/
def breakAt (sep : Char) : List Char → Option (List Char × List Char)
  | [] => none
  | c :: rest =>
    if c = sep then some ([], rest)
    else (breakAt sep rest).map (fun ab => (c :: ab.1, ab.2))

/-- Python `s.split(sep, maxsplit)` for a single-character separator. -/
def pySplitMax (sep : Char) : Nat → List Char → List (List Char)
  | 0, s => [s]
  | n + 1, s =>
    match breakAt sep s with
    | none => [s]
    | some (a, b) => a :: pySplitMax sep n b

set_option linter.unusedVariables false in
/-- Python `s.replace(pat, repl)` (all non-overlapping occurrences, left to
right); an empty `pat` is treated as never matching (the sources only call
this with a non-empty literal). -/
def pyReplaceAll (pat repl : List Char) : List Char → List Char
  | [] => []
  | c :: rest =>
    if h : pat ≠ [] ∧ pat.isPrefixOf (c :: rest) then
      repl ++ pyReplaceAll pat repl ((c :: rest).drop pat.length)
    else c :: pyReplaceAll pat repl rest
  termination_by l => l.length
  decreasing_by
  · simp only [List.length_drop]
    have hlen : pat.length ≤ (c :: rest).length :=
      (List.isPrefixOf_iff_prefix.mp h.2).length_le
    have hpos : 0 < pat.length := List.length_pos.mpr h.1
    simp only [List.length_cons] at hlen ⊢
    omega
  · simp

/-- Python `str.title()` (ASCII): uppercase a letter that follows a
non-letter, lowercase a letter that follows a letter. -/
def pyTitleGo : Bool → List Char → List Char
  | _, [] => []
  | prevAlpha, c :: rest =>
    (if c.isAlpha then (if prevAlpha then c.toLower else c.toUpper) else c)
      :: pyTitleGo c.isAlpha rest

def pyTitle (l : List Char) : List Char := pyTitleGo false l

/-! ### The curator's hard-coded regexes, compiled to matchers

`error-curator.py` searches the lower-cased error text with
`unrecognized option [`'\x22]?(-\x7b1,2\x7d[\w-]+)` (and the same with
`invalid option`), and the raw command with `.*&&.*` and `^echo\s+.*>`
(both `re.IGNORECASE`).  Each is translated below with Python's
leftmost-match backtracking semantics. -/

/-- Regex class `[\w-]` (ASCII `\w` plus dash). -/
def isWordOrDash (c : Char) : Bool := c.isAlphanum || c = '_' || c = '-'

/-- Match `(-\x7b1,2\x7d[\w-]+)` at the head of the list and return the
captured text: greedily try two dashes, backtracking to one dash when
`[\w-]+` cannot start after the second. -/
def matchFlagAt : List Char → Option (List Char)
  | '-' :: '-' :: rest =>
    let t := rest.takeWhile isWordOrDash
    if t.isEmpty then
      -- backtrack: `-\x7b1,2\x7d` takes one dash, `[\w-]+` starts at the second
      some ('-' :: ('-' :: rest).takeWhile isWordOrDash)
    else some ('-' :: '-' :: t)
  | '-' :: rest =>
    let t := rest.takeWhile isWordOrDash
    if t.isEmpty then none else some ('-' :: t)
  | _ => none

/-- Match `[`'\x22]?(-\x7b1,2\x7d[\w-]+)` at the head of the list: the
optional quote is consumed greedily, backtracking to the empty match. -/
def matchOptFlag (l : List Char) : Option (List Char) :=
  match l with
  | c :: rest =>
    -- the quote class: backtick (codepoint 96), single quote, double quote
    if c = Char.ofNat 96 || c = '\'' || c = '"' then
      match matchFlagAt rest with
      | some g => some g
      | none => matchFlagAt l
    else matchFlagAt l
  | [] => none

/-- Model of `re.search` for `<lit>[`'\x22]?(-\x7b1,2\x7d[\w-]+)`: scan for the
leftmost occurrence of the (non-empty) literal after which the flag part
matches, and return the captured flag. -/
def searchFlag (lit : List Char) : List Char → Option (List Char)
  | [] => none
  | hay@(_ :: rest) =>
    if lit.isPrefixOf hay then
      match matchOptFlag (hay.drop lit.length) with
      | some g => some g
      | none => searchFlag lit rest
    else searchFlag lit rest

/-- Is there a `>` before any newline?  (The `.*>` tail of the echo regex:
`.` does not match a newline.) -/
def hasGtBeforeNl : List Char → Bool
  | [] => false
  | c :: rest => if c = '>' then true else if c = '\n' then false else hasGtBeforeNl rest

/-- Model of `re.search(r'^echo\s+.*>', command, re.IGNORECASE)`: the command starts
with `echo` (case-insensitively), followed by at least one whitespace
character, then a newline-free stretch ending at a `>`. -/
def matchEchoRedirect (cmd : List Char) : Bool :=
  let l := lowerChars cmd
  if ['e', 'c', 'h', 'o'].isPrefixOf l then
    let tail := l.drop 4
    (List.range (tail.length + 1)).any (fun i =>
      0 < i && ((tail.take i).all pyIsSpace) && hasGtBeforeNl (tail.drop i))
  else false

/-! ### The event data model (`data/errors.jsonl` entries)

One record type models both JSONL event kinds; Python dictionary access
with defaults (`entry.get(k, d)`) is resolved at this parsed level, so a
missing `input.command` is the empty string and a missing `linked_fix` /
`linked_error` is `none`. -/

structure Event where
  type_ : String
  id : String
  timestamp : String
  session_id : String
  tool : String
  /-- `entry["input"]["command"]` for error events. -/
  inputCommand : String
  error : String
  awaiting_fix : Bool
  linked_fix : Option String
  linked_error : Option String
  /-- `entry["command"]` for fix events. -/
  command : String
  category : String
  deriving DecidableEq, Repr

/-! ### Signature extractor (`error-curator.py`, `extract_error_signature`) -/

/-- Model of `extract_error_signature(entry)`: prioritized cascade over the
lower-cased error text, then the two structural command regexes, then the
hash fallback.  `hashFn` stands for Python's (per-process salted) `hash`
builtin. -/
def extract_error_signature (hashFn : String → Nat) (e : Event) : Option String :=
  if e.type_ ≠ "error" then none
  else
    let command := e.inputCommand
    if command = "" then none
    else
      let errorMsg := lowerChars e.error.data
      let fw := String.mk (firstWord command.data)
      match searchFlag "unrecognized option ".data errorMsg with
      | some flag => some ("bad_flag_" ++ fw ++ "_" ++ String.mk flag)
      | none =>
      match searchFlag "invalid option ".data errorMsg with
      | some flag => some ("bad_flag_" ++ fw ++ "_" ++ String.mk flag)
      | none =>
      if containsSub "command not found".data errorMsg
          || containsSub "not recognized".data errorMsg then
        some ("cmd_not_found_" ++ fw)
      else if containsSub "no such file".data errorMsg
          || containsSub "cannot find".data errorMsg then
        some ("path_not_found_" ++ fw)
      else if containsSub "permission denied".data errorMsg
          || containsSub "access denied".data errorMsg
          || containsSub "not permitted".data errorMsg then
        some ("permission_" ++ fw)
      else if containsSub "syntax error".data errorMsg
          || containsSub "unexpected token".data errorMsg then
        some ("syntax_" ++ fw)
      -- structural command patterns, in source list order:
      -- `.*&&.*` searched anywhere is exactly a `&&` substring test
      else if containsSub "&&".data command.data then
        some "bash_and_chaining"
      else if matchEchoRedirect command.data then
        some "bash_echo_redirect"
      else
        some ("error_" ++ fw ++ "_"
          ++ toString (hashFn (String.mk (errorMsg.take 100)) % 10000))

/-! ### Pairing engine (`error-curator.py`, `pair_errors_with_fixes`) -/

/-- Insert-or-replace in an association list, keeping the position of a key
already present (a Python dict assignment `d[k] = v`). -/
def upsert {α : Type} (k : String) (v : α) : List (String × α) → List (String × α)
  | [] => [(k, v)]
  | (k', v') :: rest => if k' = k then (k', v) :: rest else (k', v') :: upsert k v rest

/-- Model of `pair_errors_with_fixes(entries)`: first pass collects fixes keyed by
`linked_error` (a later fix overwrites an earlier one with the same link);
second pass maps each error id to the error and its fix, if any.
Association lists in entry order model Python's insertion-ordered dicts. -/
def pair_errors_with_fixes (entries : List Event) :
    List (String × (Event × Option Event)) :=
  let fixes_by_linked := entries.foldl
    (fun m e =>
      if e.type_ = "fix" then
        match e.linked_error with
        | some l => if l ≠ "" then upsert l e m else m
        | none => m
      else m) []
  entries.foldl
    (fun m e =>
      if e.type_ = "error" then upsert e.id (e, fixes_by_linked.lookup e.id) m
      else m) []

/-- One signature's grouped data (`analyze_error_patterns` bucket). -/
structure Group where
  errors : List Event
  fixes : List Event
  commands : List String
  fix_commands : List String
  deriving DecidableEq, Repr

def Group.empty : Group := ⟨[], [], [], []⟩

/-- Model of `defaultdict` access-and-mutate: update the bucket for `sig` in place,
creating an empty bucket at the end when the key is new. -/
def groupUpdate (sig : String) (f : Group → Group) :
    List (String × Group) → List (String × Group)
  | [] => [(sig, f Group.empty)]
  | (k, v) :: rest =>
    if k = sig then (k, f v) :: rest else (k, v) :: groupUpdate sig f rest

/-- Model of `analyze_error_patterns(entries)`: group paired errors by signature,
collecting errors, commands, linked fixes and fix commands. -/
def analyze_error_patterns (hashFn : String → Nat) (entries : List Event) :
    List (String × Group) :=
  (pair_errors_with_fixes entries).foldl
    (fun g p =>
      let err := p.2.1
      let fix := p.2.2
      match extract_error_signature hashFn err with
      | none => g
      | some sig =>
        groupUpdate sig
          (fun gr =>
            { errors := gr.errors ++ [err]
              fixes := gr.fixes ++ (match fix with | some fx => [fx] | none => [])
              commands := gr.commands ++ [err.inputCommand]
              fix_commands := gr.fix_commands
                ++ (match fix with | some fx => [fx.command] | none => []) })
          g) []

/-! ### Pattern generator (`error-curator.py`, `generate_learned_pattern`) -/

/-- A generated/learned rule (the JSON object built by the generator). -/
structure Rule where
  id : String
  name : String
  category : String
  tool : String
  matchType : String
  matchPattern : String
  message : String
  learned_fix : String
  confidence : Nat
  error_count : Nat
  fix_count : Nat
  first_seen : String
  last_seen : String
  source : String
  deriving DecidableEq, Repr

/-! #### IEEE-754 binary64 model for the confidence expression

Python evaluates `int((fix_count / error_count) * 100)` in binary64
floating point: `/` on ints yields the exact quotient rounded once to
the nearest 53-bit-significand value, ties to even (CPython's
`long_true_divide`), `* 100` rounds the exact product the same way, and
`int` truncates toward zero.  The truncated result is not the exact
floor of `100 * fix_count / error_count` (at 29 fixes over 50 errors
the floats give 57 where the exact floor is 58), so the roundings are
modeled exactly, over integer arithmetic: a non-negative binary64 value
is a mantissa times a power of two.  All values reached here are
non-negative and in the normal range, so signs, subnormals, infinities
and overflow need no modeling. -/

/-- Round `n / d` (with `d > 0`) to the nearest integer, ties to even. -/
def rneDiv (n d : ℕ) : ℕ :=
  let t := n / d
  let r := n % d
  if 2 * r < d then t
  else if d < 2 * r then t + 1
  else if t % 2 = 0 then t else t + 1

/-- Floor of the base-2 logarithm (0 at 0 and 1), by structural fuel so
the kernel can evaluate it. -/
def natLog2Aux : ℕ → ℕ → ℕ
  | 0, _ => 0
  | fuel + 1, n => if n ≤ 1 then 0 else natLog2Aux fuel (n / 2) + 1

def natLog2 (n : ℕ) : ℕ := natLog2Aux n n

/-- Correctly rounded binary64 quotient of the positive ints `a / b`
(Python's int true division): the result is `m * 2 ^ t` for the
returned `(m, t)`, where the quotient's binade
`2 ^ e ≤ a / b < 2 ^ (e + 1)` fixes the grid `t = e − 52` and `m` is
the 53-bit rounding of the exact quotient on that grid (a carry to
`2 ^ 53` denotes the same value on the next binade). -/
def flDivNat (a b : ℕ) : ℕ × ℤ :=
  let e : ℤ :=
    if b ≤ a then (natLog2 (a / b) : ℤ)
    else
      let c := natLog2 (b / a)
      if b ≤ a * 2 ^ c then -(c : ℤ) else -((c : ℤ) + 1)
  let s : ℤ := 52 - e
  let m := if 0 ≤ s then rneDiv (a * 2 ^ s.toNat) b else rneDiv a (b * 2 ^ (-s).toNat)
  (m, e - 52)

/-- Correctly rounded binary64 multiplication of `m * 2 ^ t` by the exact
constant 100, returning the new mantissa on the same grid `2 ^ t`: the
product's binade is `natLog2 (m * 100) + t`, so the rounding step is
`natLog2 (m * 100) − 52` bits; below 53 bits the product is exact. -/
def flMul100 (m : ℕ) : ℕ :=
  let j := natLog2 (m * 100)
  if j ≤ 52 then m * 100 else rneDiv (m * 100) (2 ^ (j - 52)) * 2 ^ (j - 52)

/-- Python `int(...)` on the non-negative value `k * 2 ^ t`: truncation
toward zero, which is the floor — a shift in either direction. -/
def truncScaled (k : ℕ) (t : ℤ) : ℕ :=
  if 0 ≤ t then k * 2 ^ t.toNat else k / 2 ^ (-t).toNat

/-- Model of `int((fix_count / error_count) * 100) if error_count > 0 else 0`
in exact binary64 semantics: divide the counts with one correct
rounding, multiply by 100 with one correct rounding, truncate toward
zero (zero fixes short-circuit to the exact 0.0). -/
def confidenceOf (fix_count error_count : Nat) : Nat :=
  if 0 < error_count then
    if fix_count = 0 then 0
    else
      truncScaled
        (flMul100 (flDivNat fix_count error_count).1)
        (flDivNat fix_count error_count).2
  else 0

/-- Model of `data["errors"][0].get("timestamp", "")[:10] if data["errors"] else ""`. -/
def firstSeenOf (data : Group) : String :=
  match data.errors.head? with
  | some e => String.mk (e.timestamp.data.take 10)
  | none => ""

/-- Model of `data["errors"][-1].get("timestamp", "")[:10] if data["errors"] else ""`. -/
def lastSeenOf (data : Group) : String :=
  match data.errors.getLast? with
  | some e => String.mk (e.timestamp.data.take 10)
  | none => ""

/-- Model of `generate_learned_pattern(signature, data)`.  A signature starting with
`bad_flag_` always splits into at least three parts under
`split("_", 2)` (the prefix itself contains two underscores), so Python's
`len(parts) >= 3` guard cannot fall through; the guard is kept as the
conjunct of the first branch, whose failure lands in the same exact-match
fallback Python would reach. -/
def generate_learned_pattern (signature : String) (data : Group) : Option Rule :=
  let sample_command := data.commands.headD ""
  let sample_fix := data.fix_commands.headD ""
  let error_count := data.errors.length
  let fix_count := data.fixes.length
  let confidence := confidenceOf fix_count error_count
  let first_seen := firstSeenOf data
  let last_seen := lastSeenOf data
  if strPre "bad_flag_" signature
      ∧ 3 ≤ (pySplitMax '_' 2 signature.data).length then
    let remainder := (pySplitMax '_' 2 signature.data).getD 2 []
    let cmd_and_flag := pySplitMax '_' 1 remainder
    let cmd := String.mk (cmd_and_flag.headD [])
    let bad_flag := String.mk (cmd_and_flag.getD 1 [])
    let escaped_flag := String.mk (pyReEscape bad_flag.data)
    some
      { id := signature
        name := "Bad flag: " ++ cmd ++ " " ++ bad_flag
        category := "learned"
        tool := "Bash"
        matchType := "regex"
        matchPattern := "^" ++ cmd ++ "\\s+.*" ++ escaped_flag
        message := "BLOCKED: '" ++ bad_flag ++ "' is not a valid option for " ++ cmd ++ "."
        learned_fix := if sample_fix ≠ "" then sample_fix
          else "Remove or replace '" ++ bad_flag ++ "'"
        confidence, error_count, fix_count, first_seen, last_seen
        source := "auto_learned" }
  else if strPre "cmd_not_found_" signature then
    let cmd := String.mk (pyReplaceAll "cmd_not_found_".data [] signature.data)
    some
      { id := signature
        name := "Command not found: " ++ cmd
        category := "learned"
        tool := "Bash"
        matchType := "regex"
        matchPattern := "^" ++ String.mk (pyReEscape cmd.data) ++ "(\\s|$)"
        message := "BLOCKED: '" ++ cmd ++ "' is not available on this system."
        learned_fix := if sample_fix ≠ "" then sample_fix
          else "Use an alternative command or tool"
        confidence, error_count, fix_count, first_seen, last_seen
        source := "auto_learned" }
  else if strPre "path_not_found_" signature ∨ strPre "permission_" signature then
    none
  else if signature = "bash_and_chaining" then
    some
      { id := signature
        name := String.mk (pyTitle (pyReplaceAll "_".data " ".data signature.data))
        category := "learned"
        tool := "Bash"
        matchType := "contains"
        matchPattern := "&&"
        message := "BLOCKED: '&&' doesn't work here."
        learned_fix := if sample_fix ≠ "" then sample_fix
          else "Check error log for alternatives"
        confidence, error_count, fix_count, first_seen, last_seen
        source := "auto_learned" }
  else if signature = "bash_echo_redirect" then
    some
      { id := signature
        name := String.mk (pyTitle (pyReplaceAll "_".data " ".data signature.data))
        category := "learned"
        tool := "Bash"
        matchType := "regex"
        matchPattern := "^echo\\s+.*>"
        message := "BLOCKED: Use the Write tool instead."
        learned_fix := if sample_fix ≠ "" then sample_fix
          else "Check error log for alternatives"
        confidence, error_count, fix_count, first_seen, last_seen
        source := "auto_learned" }
  else
    some
      { id := signature
        name := String.mk (pyTitle (pyReplaceAll "_".data " ".data signature.data))
        category := "learned"
        tool := "Bash"
        matchType := "exact"
        matchPattern := String.mk (pyStrip sample_command.data)
        message := "BLOCKED: This exact command has failed "
          ++ toString error_count ++ " time(s)."
        learned_fix := if sample_fix ≠ "" then sample_fix
          else "Check error log for details"
        confidence, error_count, fix_count, first_seen, last_seen
        source := "auto_learned" }

/-! ### Automatic curation (`error-curator.py`, `auto_curate`)

The pure core of `auto_curate` after its configuration/empty-log gates:
existing rule ids are collected up front, each signature group is visited
in grouping order, and a generated rule is appended to the learned pack
when the signature is new, the group meets the threshold, and the
generator does not return `None`. -/
def auto_curate_core (hashFn : String → Nat) (threshold : Int)
    (entries : List Event) (learned : List Rule) : List Rule × List String :=
  let existing_ids := learned.map (·.id)
  let grouped := analyze_error_patterns hashFn entries
  grouped.foldl
    (fun acc sg =>
      if existing_ids.contains sg.1 then acc
      else if threshold ≤ (sg.2.errors.length : Int) then
        match generate_learned_pattern sg.1 sg.2 with
        | none => acc
        | some p => (acc.1 ++ [p], acc.2 ++ [sg.1])
      else acc)
    (learned, [])

/-! ### Command validator (`command-validator.py`)

User-supplied rule and allowlist patterns may contain arbitrary regexes,
so `re.search` is an oracle parameter `research pattern command`:
`some b` is a successful compile returning match/no-match, `none` is a
`re.error` (which both matchers treat as no match). -/

/-- A parsed allowlist entry: `pattern.get("type", "prefix")` and
`pattern.get("pattern", "")` resolved. -/
structure AllowEntry where
  type_ : String
  pattern : String
  deriving DecidableEq, Repr

/-- One iteration of the `is_allowed` loop body. -/
def matchAllowEntry (research : String → String → Option Bool)
    (command : String) (e : AllowEntry) : Bool :=
  if e.pattern = "" then false
  else if e.type_ = "prefix" then strPre e.pattern command
  else if e.type_ = "exact" then command = e.pattern
  else if e.type_ = "contains" then strContains e.pattern command
  else if e.type_ = "regex" then (research e.pattern command).getD false
  else false

/-- Model of `is_allowed(command, allowlist)`. -/
def is_allowed (research : String → String → Option Bool)
    (command : String) (allowlist : List AllowEntry) : Bool :=
  allowlist.any (matchAllowEntry research command)

/-- A parsed active-set rule as the validator reads it: the `match` object's
type (default `contains`) and pattern (default `""`), the message, the
resolved `learned_fix`/`suggestion` fallback, and `confidence`
(default `0`). -/
structure VRule where
  matchType : String
  matchPattern : String
  message : String
  learned_fix : String
  confidence : Int
  deriving DecidableEq, Repr

/-- Model of `check_pattern(command, pattern)`. -/
def check_pattern (research : String → String → Option Bool)
    (command : String) (p : VRule) : Bool :=
  if p.matchPattern = "" then false
  else if p.matchType = "contains" then strContains p.matchPattern command
  else if p.matchType = "exact" then command = p.matchPattern
  else if p.matchType = "regex" then (research p.matchPattern command).getD false
  else false

/-- Model of `format_block_message(pattern, config)`. -/
def format_block_message (p : VRule) (show_confidence : Bool) : String :=
  if p.learned_fix ≠ "" then
    if show_confidence ∧ 0 < p.confidence then
      p.message ++ "\nLEARNED FIX (" ++ toString p.confidence ++ "% confidence): "
        ++ p.learned_fix
    else p.message ++ "\nLEARNED FIX: " ++ p.learned_fix
  else p.message

/-- The validator's `main`, as exit code and optional stderr text.
`stdin` is the parse of standard input resolved to the command string
(`input.get("tool_input", \x7b\x7d).get("command", "")`); `Except.error`
is a `json.load` failure, which the entry point's `except Exception`
turns into exit 0.  A matching rule calls `sys.exit(2)`, which is not an
`Exception` and escapes the handler. -/
def validatorMain (research : String → String → Option Bool)
    (show_confidence : Bool) (stdin : Except Unit String)
    (allowlist : List AllowEntry) (patterns : List VRule) : Nat × Option String :=
  match stdin with
  | .error _ => (0, none)
  | .ok command =>
    if command = "" then (0, none)
    else if is_allowed research command allowlist then (0, none)
    else
      match patterns.find? (fun p => check_pattern research command p) with
      | some p => (2, some (format_block_message p show_confidence))
      | none => (0, none)

/-! ### Fix tracker (`fix-tracker.py`) -/

/-- The parsed hook payload read by `fix-tracker.py`'s `main`. -/
structure FTInput where
  tool_name : String
  command : String
  response_text : String
  session_id : String
  deriving DecidableEq, Repr

/-- The failure-indicator substrings of `fix-tracker.py`. -/
def error_indicators : List String :=
  ["error:", "Error:", "ERROR:",
   "not recognized", "not found", "cannot find",
   "permission denied", "access denied",
   "failed", "Failed", "FAILED",
   "exception", "Exception",
   "command not found",
   "No such file or directory"]

/-- Model of `get_last_error()`: last `type == "error"` entry of the log. -/
def get_last_error (log : List Event) : Option Event :=
  log.foldl (fun acc e => if e.type_ = "error" then some e else acc) none

/-- Model of `update_error_awaiting_fix(error_id, fix_id)`: rewrite of the whole log
that flips `awaiting_fix` and sets `linked_fix` on entries with the given
id, leaving every other entry as it was. -/
def update_error_awaiting_fix (error_id fix_id : String) (log : List Event) :
    List Event :=
  log.map (fun e =>
    if e.id = error_id then { e with awaiting_fix := false, linked_fix := some fix_id }
    else e)

/-- The fix record appended by `fix-tracker.py` (fields absent from the
JSON object are the model's defaults: no command under `input`, empty
error text, not awaiting a fix). -/
def mkFixEvent (fix_id timestamp : String) (d : FTInput) (error_id : String) : Event :=
  { type_ := "fix"
    id := fix_id
    timestamp
    session_id := d.session_id
    tool := d.tool_name
    inputCommand := ""
    error := ""
    awaiting_fix := false
    linked_fix := none
    linked_error := some error_id
    command := d.command
    category := "" }

/-- Model of `fix-tracker.py`'s `main` as a function from the previous log to the
new log.  `fix_id` and `timestamp` stand for the wall-clock values of
`generate_fix_id()` / `datetime.now()`.  The update pass runs after the
append, exactly as the script rereads the file it just extended. -/
def fixTrackerMain (track_fixes : Bool) (stdin : Except Unit FTInput)
    (fix_id timestamp : String) (log : List Event) : List Event :=
  match stdin with
  | .error _ => log
  | .ok d =>
    if ¬ track_fixes then log
    else if error_indicators.any (fun ind => strContains ind d.response_text) then log
    else if d.command = "" then log
    else
      match get_last_error log with
      | none => log
      | some le =>
        if ¬ le.awaiting_fix then log
        else if le.session_id ≠ d.session_id then log
        else if le.tool ≠ d.tool_name then log
        else
          update_error_awaiting_fix le.id fix_id
            (log ++ [mkFixEvent fix_id timestamp d le.id])

/-! ### Pack merging

Two independent implementations exist: `merge_packs` in
`error-curator.py` (keeps a rule only when its id is present and
non-empty) and `merge_packs` in `manage-packs.py` (deduplicates on the
raw `p.get("id")` value, so the first rule with a missing/empty id is
kept).  Rules are opaque here except for their id; `payload`
distinguishes same-id rules from different packs. -/

structure Pat where
  id? : Option String
  payload : String
  deriving DecidableEq, Repr

namespace Curator

/-- Model of `merge_packs()` of `error-curator.py`: the merged `patterns` list.
`packs` is the disk contents (`load_pack` of a missing pack is the empty
list), `enabled` the configured `enabled_packs` order; `seen_ids` is
modeled as the list of ids in insertion order. -/
def merge_packs (packs : String → List Pat) (enabled : List String) : List Pat :=
  (enabled.foldl
    (fun st name =>
      (packs name).foldl
        (fun st p =>
          match p.id? with
          | some i => if i ≠ "" ∧ ¬ st.2.contains i then (st.1 ++ [p], st.2 ++ [i]) else st
          | none => st)
        st)
    (([] : List Pat), ([] : List String))).1

end Curator

namespace Manager

/-- Model of `merge_packs(enabled)` of `manage-packs.py`: deduplicates on the raw
`p.get("id")` value, including `None` and the empty string. -/
def merge_packs (packs : String → List Pat) (enabled : List String) : List Pat :=
  (enabled.foldl
    (fun st name =>
      (packs name).foldl
        (fun st p =>
          if ¬ st.2.contains p.id? then (st.1 ++ [p], st.2 ++ [p.id?]) else st)
        st)
    (([] : List Pat), ([] : List (Option String)))).1

end Manager

/-! ### Concrete fixtures -/

/-- Error event of end-to-end scenario 2: `tar --zelda file.tar` failing
with `tar: invalid option -- 'zelda'`. -/
def tarEvent : Event :=
  { type_ := "error", id := "err_tar", timestamp := "2025-06-01T10:00:00Z"
    session_id := "s1", tool := "Bash"
    inputCommand := "tar --zelda file.tar"
    error := "tar: invalid option -- 'zelda'"
    awaiting_fix := true, linked_fix := none, linked_error := none
    command := "", category := "" }

/-- A failing `grep` whose error text matches none of the message rules. -/
def grepEvent : Event :=
  { type_ := "error", id := "err_grep", timestamp := "2025-06-01T10:00:00Z"
    session_id := "s1", tool := "Bash"
    inputCommand := "grep foo bar"
    error := "exit status 1"
    awaiting_fix := true, linked_fix := none, linked_error := none
    command := "", category := "" }

/-- A failing `find` whose error text matches none of the message rules. -/
def findEvent : Event :=
  { type_ := "error", id := "err_find", timestamp := "2025-06-01T10:00:00Z"
    session_id := "s1", tool := "Bash"
    inputCommand := "find . -name x"
    error := "boom"
    awaiting_fix := true, linked_fix := none, linked_error := none
    command := "", category := "" }

/-! ### C3: the bad-flag end-to-end scenario -/

/-- C3.  On the error text `tar: invalid option -- 'zelda'` the extractor's
flag regex captures `--` (the group backtracks from two dashes to one and
then matches the second dash with the `[\w-]+` part, stopping at the
space before `'zelda'`), so the extractor-then-generator pipeline emits
the regex `^tar\s+.*\-\-` and a message naming `--`, not the claimed
`^tar\s+.*\-\-zelda` naming `zelda`. -/
theorem C3_bad_flag_rule_on_tar_zelda :
    extract_error_signature (fun _ => 0) tarEvent = some "bad_flag_tar_--"
    ∧ (((analyze_error_patterns (fun _ => 0) [tarEvent]).lookup "bad_flag_tar_--").bind
        (generate_learned_pattern "bad_flag_tar_--")).map
          (fun r => (r.matchType, r.matchPattern, r.message))
      = some ("regex", "^tar\\s+.*\\-\\-",
          "BLOCKED: '--' is not a valid option for tar.")
    ∧ ("^tar\\s+.*\\-\\-" : String) ≠ "^tar\\s+.*\\-\\-zelda" := by
  refine ⟨by decide, by decide, by decide⟩

/-! ### C4: the confidence formula -/

/-- C4 counterexample.  Three structurally-grouped errors, two of them
with linked fixes: the code computes `int((2/3)*100) = 66`, not
`round(100*2/3) = 67`. -/
theorem C4_confidence_not_rounded :
    (((analyze_error_patterns (fun _ => 0)
        [{ tarEvent with id := "e1", inputCommand := "a && b", error := "weird" },
         { tarEvent with id := "e2", inputCommand := "a && b", error := "weird" },
         { tarEvent with id := "e3", inputCommand := "a && b", error := "weird" },
         { tarEvent with
            type_ := "fix"
            id := "f1"
            linked_error := some "e1"
            command := "a ; b" },
         { tarEvent with
            type_ := "fix"
            id := "f2"
            linked_error := some "e2"
            command := "a ; b" }]).lookup "bash_and_chaining").bind
      (generate_learned_pattern "bash_and_chaining")).map (·.confidence)
      = some 66
    ∧ (66 : Nat) ≠ 67 := by
  refine ⟨by decide, by decide⟩

/-- C4 as amended.  Every rule the generator emits carries
`confidence = int((fix_count / error_count) * 100)` evaluated in
binary64 floating point — a truncation toward zero of the correctly
rounded product, not a rounding of the exact ratio — together with the
group's error and fix counts; the confidence is 0 when `error_count`
is 0. -/
theorem C4_confidence_truncated (signature : String) (data : Group) (r : Rule)
    (h : generate_learned_pattern signature data = some r) :
    r.confidence
        = (if 0 < data.errors.length then
            if data.fixes.length = 0 then 0
            else
              truncScaled
                (flMul100 (flDivNat data.fixes.length data.errors.length).1)
                (flDivNat data.fixes.length data.errors.length).2
          else 0)
    ∧ r.error_count = data.errors.length
    ∧ r.fix_count = data.fixes.length := by
  simp only [generate_learned_pattern] at h
  repeat' split at h
  all_goals
    first
    | (injection h with h'; subst h'; exact ⟨rfl, rfl, rfl⟩)
    | simp at h

/-- C4 witness: a group with three errors and one fix gets confidence 33. -/
theorem C4_confidence_truncated_witness :
    (0 : Nat) < 3
    ∧ ∃ r, generate_learned_pattern "bash_and_chaining"
        { errors := [tarEvent, tarEvent, tarEvent], fixes := [grepEvent]
          commands := ["a && b"], fix_commands := ["a ; b"] } = some r
      ∧ r.confidence = 33 := by
  refine ⟨by decide, ?_⟩
  have h := C4_confidence_truncated "bash_and_chaining"
      { errors := [tarEvent, tarEvent, tarEvent], fixes := [grepEvent]
        commands := ["a && b"], fix_commands := ["a ; b"] }
  cases hg : generate_learned_pattern "bash_and_chaining"
      { errors := [tarEvent, tarEvent, tarEvent], fixes := [grepEvent]
        commands := ["a && b"], fix_commands := ["a ; b"] } with
  | none => exact absurd hg (by decide)
  | some r => exact ⟨r, rfl, by rw [(h r hg).1]; decide⟩

/-! ### C5: the structural fallback stage -/

/-- C5 counterexample.  A failing `grep foo bar` whose error text matches
no message rule gets the hash-fallback signature (here with the hash
function constantly 0), not a `grep` structural signature: the
structural list contains only the `&&`-chaining and `echo`-redirect
regexes. -/
theorem C5_grep_falls_to_hash :
    extract_error_signature (fun _ => 0) grepEvent = some "error_grep_0" := by
  decide

/-- C5 as amended.  When the error text matches none of the
error-message rules, the structural stage checks exactly two regexes, in
order — `.*&&.*` (a `&&` substring) then `^echo\s+.*>` — and any other
command falls to the hash-based signature
`error_<firstWord>_<hash(errorText[:100]) % 10000>`. -/
theorem C5_structural_stage (hashFn : String → Nat) (e : Event)
    (htype : e.type_ = "error") (hcmd : e.inputCommand ≠ "")
    (h1 : searchFlag "unrecognized option ".data (lowerChars e.error.data) = none)
    (h2 : searchFlag "invalid option ".data (lowerChars e.error.data) = none)
    (h3 : containsSub "command not found".data (lowerChars e.error.data) = false)
    (h4 : containsSub "not recognized".data (lowerChars e.error.data) = false)
    (h5 : containsSub "no such file".data (lowerChars e.error.data) = false)
    (h6 : containsSub "cannot find".data (lowerChars e.error.data) = false)
    (h7 : containsSub "permission denied".data (lowerChars e.error.data) = false)
    (h8 : containsSub "access denied".data (lowerChars e.error.data) = false)
    (h9 : containsSub "not permitted".data (lowerChars e.error.data) = false)
    (h10 : containsSub "syntax error".data (lowerChars e.error.data) = false)
    (h11 : containsSub "unexpected token".data (lowerChars e.error.data) = false) :
    extract_error_signature hashFn e
      = (if containsSub "&&".data e.inputCommand.data then some "bash_and_chaining"
        else if matchEchoRedirect e.inputCommand.data then some "bash_echo_redirect"
        else some ("error_" ++ firstWordStr e.inputCommand ++ "_"
          ++ toString (hashFn (String.mk ((lowerChars e.error.data).take 100)) % 10000))) := by
  simp only [extract_error_signature, htype, hcmd, h1, h2, h3, h4, h5, h6, h7, h8, h9,
    h10, h11, firstWordStr, ne_eq, not_true_eq_false, if_false, Bool.or_self,
    Bool.false_eq_true, reduceIte]

/-- C5 witness: a failing `find` with unmatched error text and hash 7. -/
theorem C5_structural_stage_witness :
    extract_error_signature (fun _ => 7) findEvent = some "error_find_7" := by
  have h := C5_structural_stage (fun _ => 7) findEvent rfl (by decide)
    (by decide) (by decide) (by decide) (by decide) (by decide) (by decide)
    (by decide) (by decide) (by decide) (by decide) (by decide)
  rw [h]
  decide

/-! ### C1: allowlist dominance -/

/-- C1.  If any allowlist entry matches the command under its own match
type, the validator exits 0 with no block message, whatever the active
rule set contains: `is_allowed` is consulted before any rule is
evaluated. -/
theorem C1_allowlist_dominance (research : String → String → Option Bool)
    (show_confidence : Bool) (command : String)
    (allowlist : List AllowEntry) (patterns : List VRule) (e : AllowEntry)
    (hmem : e ∈ allowlist) (hmatch : matchAllowEntry research command e = true) :
    validatorMain research show_confidence (.ok command) allowlist patterns
      = (0, none) := by
  have hall : is_allowed research command allowlist = true :=
    List.any_eq_true.mpr ⟨e, hmem, hmatch⟩
  unfold validatorMain
  by_cases hc : command = "" <;> simp [hc, hall]

/-- C1 witness: a prefix allowlist entry for `git ` lets `git status`
through even though a contains-rule on `git` would block it. -/
theorem C1_allowlist_dominance_witness :
    validatorMain (fun _ _ => some false) true (.ok "git status")
      [⟨"prefix", "git "⟩] [⟨"contains", "git", "blocked", "", 0⟩] = (0, none) :=
  C1_allowlist_dominance (fun _ _ => some false) true "git status"
    [⟨"prefix", "git "⟩] [⟨"contains", "git", "blocked", "", 0⟩]
    ⟨"prefix", "git "⟩ (by simp) (by decide)

/-! ### C2: fail-open validation -/

/-- C2.  The validator's exit code is always 0 or 2; a malformed stdin
(`json.load` raising, the only exception source once the loaders have
already defaulted malformed files) exits 0 with no message; a genuine
first-matching rule on a non-empty, non-allowlisted command exits 2 with
the formatted block message on stderr; and an exit code of 2 happens
only through such a genuine match. -/
theorem C2_fail_open (research : String → String → Option Bool)
    (show_confidence : Bool) (stdin : Except Unit String)
    (allowlist : List AllowEntry) (patterns : List VRule) :
    ((validatorMain research show_confidence stdin allowlist patterns).1 = 0
      ∨ (validatorMain research show_confidence stdin allowlist patterns).1 = 2)
    ∧ (∀ u : Unit, stdin = .error u →
        validatorMain research show_confidence stdin allowlist patterns = (0, none))
    ∧ (∀ (command : String) (p : VRule), stdin = .ok command → command ≠ "" →
        is_allowed research command allowlist = false →
        patterns.find? (fun q => check_pattern research command q) = some p →
        validatorMain research show_confidence stdin allowlist patterns
          = (2, some (format_block_message p show_confidence)))
    ∧ ((validatorMain research show_confidence stdin allowlist patterns).1 = 2 →
        ∃ (command : String) (p : VRule), stdin = .ok command ∧ command ≠ ""
          ∧ is_allowed research command allowlist = false
          ∧ patterns.find? (fun q => check_pattern research command q) = some p
          ∧ validatorMain research show_confidence stdin allowlist patterns
              = (2, some (format_block_message p show_confidence))) := by
  refine ⟨?_, ?_, ?_, ?_⟩
  · cases stdin with
    | error u => simp [validatorMain]
    | ok command =>
      by_cases hc : command = ""
      · simp [validatorMain, hc]
      · by_cases ha : is_allowed research command allowlist
        · simp [validatorMain, hc, ha]
        · cases hf : patterns.find? (fun q => check_pattern research command q) with
          | none => simp [validatorMain, hc, ha, hf]
          | some p => simp [validatorMain, hc, ha, hf]
  · intro u hu
    subst hu
    simp [validatorMain]
  · intro command p hs hc ha hf
    subst hs
    simp [validatorMain, hc, ha, hf]
  · intro h2
    cases stdin with
    | error u => simp [validatorMain] at h2
    | ok command =>
      by_cases hc : command = ""
      · simp [validatorMain, hc] at h2
      · by_cases ha : is_allowed research command allowlist
        · simp [validatorMain, hc, ha] at h2
        · cases hf : patterns.find? (fun q => check_pattern research command q) with
          | none => simp [validatorMain, hc, ha, hf] at h2
          | some p =>
            refine ⟨command, p, rfl, hc, by simpa using ha, hf, ?_⟩
            simp [validatorMain, hc, ha, hf]

/-- C2 witness: a malformed stdin allows, and a genuine `contains` match
on `rm` blocks `rm -rf /` with the learned-fix line. -/
theorem C2_fail_open_witness :
    validatorMain (fun _ _ => some false) true (.error ()) []
      [⟨"contains", "rm", "blocked rm", "use trash", 80⟩] = (0, none)
    ∧ validatorMain (fun _ _ => some false) true (.ok "rm -rf /") []
      [⟨"contains", "rm", "blocked rm", "use trash", 80⟩]
      = (2, some "blocked rm\nLEARNED FIX (80% confidence): use trash") := by
  constructor
  · exact (C2_fail_open (fun _ _ => some false) true (.error ()) []
      [⟨"contains", "rm", "blocked rm", "use trash", 80⟩]).2.1 () rfl
  · have h := (C2_fail_open (fun _ _ => some false) true (.ok "rm -rf /") []
      [⟨"contains", "rm", "blocked rm", "use trash", 80⟩]).2.2.1
      "rm -rf /" ⟨"contains", "rm", "blocked rm", "use trash", 80⟩
      rfl (by decide) (by decide) (by decide)
    rw [h]
    decide

/-! ### Merge lemmas (C8, C10) -/

/-- The per-rule step of the curator's merge loop. -/
def curatorStep (st : List Pat × List String) (p : Pat) : List Pat × List String :=
  match p.id? with
  | some i => if i ≠ "" ∧ ¬ st.2.contains i then (st.1 ++ [p], st.2 ++ [i]) else st
  | none => st

/-- The per-rule step of the manager's merge loop. -/
def managerStep (st : List Pat × List (Option String)) (p : Pat) :
    List Pat × List (Option String) :=
  if ¬ st.2.contains p.id? then (st.1 ++ [p], st.2 ++ [p.id?]) else st

/-- Recursive form of the curator's dedup-by-id traversal. -/
def dedupC (seen : List String) : List Pat → List Pat
  | [] => []
  | p :: rest =>
    match p.id? with
    | some i =>
      if i ≠ "" ∧ ¬ seen.contains i then p :: dedupC (seen ++ [i]) rest
      else dedupC seen rest
    | none => dedupC seen rest

/-- Ids seen after the curator's traversal of a rule list. -/
def seenAfterC (seen : List String) : List Pat → List String
  | [] => seen
  | p :: rest =>
    match p.id? with
    | some i =>
      if i ≠ "" ∧ ¬ seen.contains i then seenAfterC (seen ++ [i]) rest
      else seenAfterC seen rest
    | none => seenAfterC seen rest

theorem foldl_curatorStep (l : List Pat) :
    ∀ (acc : List Pat) (seen : List String),
      l.foldl curatorStep (acc, seen) = (acc ++ dedupC seen l, seenAfterC seen l) := by
  induction l with
  | nil => intro acc seen; simp [dedupC, seenAfterC]
  | cons p rest ih =>
    intro acc seen
    simp only [List.foldl_cons]
    cases hid : p.id? with
    | none => simp [curatorStep, hid, ih, dedupC, seenAfterC]
    | some i =>
      by_cases hkeep : i ≠ "" ∧ i ∉ seen
      · simp [curatorStep, hid, hkeep, ih, dedupC, seenAfterC]
      · simp [curatorStep, hid, hkeep, ih, dedupC, seenAfterC]

/-- The curator's merge is the dedup traversal of the packs' rules
concatenated in enabled order. -/
theorem curator_merge_eq_dedupC (packs : String → List Pat) (enabled : List String) :
    Curator.merge_packs packs enabled = dedupC [] ((enabled.map packs).flatten) := by
  have hstep : Curator.merge_packs packs enabled
      = (((enabled.map packs).flatten).foldl curatorStep ([], [])).1 := by
    unfold Curator.merge_packs
    rw [List.foldl_flatten, List.foldl_map]
    rfl
  rw [hstep, foldl_curatorStep]
  simp

theorem dedupC_filter_seen (x : String) :
    ∀ (l : List Pat) (seen : List String), x ∈ seen →
      (dedupC seen l).filter (fun p => p.id? == some x) = [] := by
  intro l
  induction l with
  | nil => intro seen _; simp [dedupC]
  | cons p rest ih =>
    intro seen hx
    cases hid : p.id? with
    | none => simpa [dedupC, hid] using ih seen hx
    | some i =>
      by_cases hkeep : i ≠ "" ∧ i ∉ seen
      · have hne : i ≠ x := fun he => hkeep.2 (he ▸ hx)
        have hrec := ih (seen ++ [i]) (by simp [hx])
        simp [dedupC, hid, hkeep, hne, hrec]
      · simpa [dedupC, hid, hkeep] using ih seen hx

theorem dedupC_filter_not_seen (x : String) (hx : x ≠ "") :
    ∀ (l : List Pat) (seen : List String), x ∉ seen →
      (dedupC seen l).filter (fun p => p.id? == some x)
        = (l.filter (fun p => p.id? == some x)).take 1 := by
  intro l
  induction l with
  | nil => intro seen _; simp [dedupC]
  | cons p rest ih =>
    intro seen hsx
    cases hid : p.id? with
    | none => simpa [dedupC, hid, List.filter_cons] using ih seen hsx
    | some i =>
      by_cases hix : i = x
      · subst hix
        have hkeep : i ≠ "" ∧ i ∉ seen := ⟨hx, hsx⟩
        have hrec := dedupC_filter_seen i rest (seen ++ [i]) (by simp)
        simp [dedupC, hid, hkeep, List.filter_cons, hrec]
      · by_cases hkeep : i ≠ "" ∧ i ∉ seen
        · have hrec := ih (seen ++ [i])
            (by
              intro hmem
              rcases List.mem_append.mp hmem with hm | hm
              · exact hsx hm
              · exact hix ((List.mem_singleton.mp hm).symm))
          simp [dedupC, hid, hkeep, List.filter_cons, hix, hrec]
        · simpa [dedupC, hid, hkeep, List.filter_cons, hix] using ih seen hsx

/-! ### C8: merge deduplication with first-pack priority -/

/-- C8.  For any non-empty id `x`, the rules with id `x` surviving the
curator's merge are exactly the first rule with id `x` in the
concatenation of the enabled packs in enabled order (so on a collision
between two packs, the earlier pack's rule wins and the merged set holds
exactly one rule with that id), and there is never more than one. -/
theorem C8_merge_dedup_first_pack_wins (packs : String → List Pat)
    (enabled : List String) (x : String) (hx : x ≠ "") :
    (Curator.merge_packs packs enabled).filter (fun p => p.id? == some x)
      = (((enabled.map packs).flatten).filter (fun p => p.id? == some x)).take 1
    ∧ ((Curator.merge_packs packs enabled).filter (fun p => p.id? == some x)).length
        ≤ 1 := by
  have h := dedupC_filter_not_seen x hx ((enabled.map packs).flatten) []
    (List.not_mem_nil x)
  rw [curator_merge_eq_dedupC]
  refine ⟨h, ?_⟩
  rw [h]
  exact (List.length_take_le 1 _).trans (by simp)

/-- C8 witness: packs `a` and `b` both define id `x`; the merged set keeps
exactly pack `a`'s copy. -/
theorem C8_merge_dedup_witness :
    (Curator.merge_packs
        (fun n => if n = "a" then [⟨some "x", "fromA"⟩]
          else if n = "b" then [⟨some "x", "fromB"⟩] else [])
        ["a", "b"]).filter (fun p => p.id? == some "x")
      = [⟨some "x", "fromA"⟩] := by
  have h := (C8_merge_dedup_first_pack_wins
      (fun n => if n = "a" then [⟨some "x", "fromA"⟩]
        else if n = "b" then [⟨some "x", "fromB"⟩] else [])
      ["a", "b"] "x" (by decide)).1
  rw [h]
  decide

/-! ### C10: the two merge implementations -/

/-- Recursive form of the manager's dedup traversal. -/
def dedupM (seen : List (Option String)) : List Pat → List Pat
  | [] => []
  | p :: rest =>
    if ¬ seen.contains p.id? then p :: dedupM (seen ++ [p.id?]) rest
    else dedupM seen rest

/-- Ids (raw `get("id")` values) seen after the manager's traversal. -/
def seenAfterM (seen : List (Option String)) : List Pat → List (Option String)
  | [] => seen
  | p :: rest =>
    if ¬ seen.contains p.id? then seenAfterM (seen ++ [p.id?]) rest
    else seenAfterM seen rest

theorem foldl_managerStep (l : List Pat) :
    ∀ (acc : List Pat) (seen : List (Option String)),
      l.foldl managerStep (acc, seen) = (acc ++ dedupM seen l, seenAfterM seen l) := by
  induction l with
  | nil => intro acc seen; simp [dedupM, seenAfterM]
  | cons p rest ih =>
    intro acc seen
    simp only [List.foldl_cons]
    by_cases hkeep : p.id? ∈ seen
    · simp [managerStep, hkeep, ih, dedupM, seenAfterM]
    · simp [managerStep, hkeep, ih, dedupM, seenAfterM]

/-- The manager's merge is its dedup traversal of the concatenation. -/
theorem manager_merge_eq_dedupM (packs : String → List Pat) (enabled : List String) :
    Manager.merge_packs packs enabled = dedupM [] ((enabled.map packs).flatten) := by
  have hstep : Manager.merge_packs packs enabled
      = (((enabled.map packs).flatten).foldl managerStep ([], [])).1 := by
    unfold Manager.merge_packs
    rw [List.foldl_flatten, List.foldl_map]
    rfl
  rw [hstep, foldl_managerStep]
  simp

/-- On a list whose rules all carry non-empty ids, the two dedup
traversals agree, provided the seen-sets correspond. -/
theorem dedupC_eq_dedupM (l : List Pat) :
    ∀ (seen : List String),
      (∀ p ∈ l, ∃ s, p.id? = some s ∧ s ≠ "") →
      dedupC seen l = dedupM (seen.map some) l := by
  induction l with
  | nil => intro seen _; simp [dedupC, dedupM]
  | cons p rest ih =>
    intro seen hids
    obtain ⟨s, hs, hsne⟩ := hids p (List.mem_cons_self p rest)
    have hrest : ∀ q ∈ rest, ∃ t, q.id? = some t ∧ t ≠ "" :=
      fun q hq => hids q (List.mem_cons_of_mem p hq)
    have hmem : (some s ∈ seen.map some) ↔ s ∈ seen := by
      constructor
      · intro hm
        obtain ⟨t, ht, hts⟩ := List.mem_map.mp hm
        exact (Option.some.injEq t s ▸ hts : t = s) ▸ ht
      · intro hm; exact List.mem_map.mpr ⟨s, hm, rfl⟩
    by_cases hin : s ∈ seen
    · have hin' : some s ∈ seen.map some := hmem.mpr hin
      simp [dedupC, dedupM, hs, hsne, hin, hin', ih seen hrest]
    · have hin' : some s ∉ seen.map some := fun hm => hin (hmem.mp hm)
      have hrec := ih (seen ++ [s]) hrest
      have hmap : (seen ++ [s]).map some = seen.map some ++ [some s] := by
        simp
      simp [dedupC, dedupM, hs, hsne, hin, hin', hrec, hmap]

/-- C10 counterexample.  A single pack holding one rule without an id:
the curator's merge drops it, the manager's merge keeps it, so the two
"equivalent" implementations produce different active pattern lists. -/
theorem C10_merges_differ_on_missing_id :
    Curator.merge_packs (fun n => if n = "p" then [⟨none, "r1"⟩] else []) ["p"]
      ≠ Manager.merge_packs (fun n => if n = "p" then [⟨none, "r1"⟩] else []) ["p"] := by
  decide

/-- C10 as amended.  The two pack-merge implementations agree on every
configuration in which each rule of every enabled pack carries a
present, non-empty id; they diverge exactly on missing/empty ids, which
the curator drops and the manager keeps (first occurrence). -/
theorem C10_merges_agree_on_wellformed_ids (packs : String → List Pat)
    (enabled : List String)
    (hids : ∀ n ∈ enabled, ∀ p ∈ packs n, ∃ s, p.id? = some s ∧ s ≠ "") :
    Curator.merge_packs packs enabled = Manager.merge_packs packs enabled := by
  rw [curator_merge_eq_dedupC, manager_merge_eq_dedupM]
  have hall : ∀ p ∈ (enabled.map packs).flatten, ∃ s, p.id? = some s ∧ s ≠ "" := by
    intro p hp
    obtain ⟨l, hl, hpl⟩ := List.mem_flatten.mp hp
    obtain ⟨n, hn, rfl⟩ := List.mem_map.mp hl
    exact hids n hn p hpl
  simpa using dedupC_eq_dedupM ((enabled.map packs).flatten) [] hall

/-- C10 witness: with proper ids the two mergers coincide. -/
theorem C10_merges_agree_witness :
    Curator.merge_packs
        (fun n => if n = "c" then [⟨some "y", "C1"⟩, ⟨some "z", "C2"⟩] else []) ["c"]
      = Manager.merge_packs
        (fun n => if n = "c" then [⟨some "y", "C1"⟩, ⟨some "z", "C2"⟩] else []) ["c"] := by
  apply C10_merges_agree_on_wellformed_ids
  intro n hn p hp
  have hn' : n = "c" := by simpa using hn
  subst hn'
  simp only [if_pos rfl] at hp
  rcases List.mem_cons.mp hp with rfl | hp'
  · exact ⟨"y", rfl, by decide⟩
  · rcases List.mem_singleton.mp hp' with rfl
    exact ⟨"z", rfl, by decide⟩

/-! ### C9: the log rewrite touches nothing else -/

/-- C9.  The rewrite performed when a fix is accepted preserves the
length and order of the log; every entry keeps its type, id, timestamp,
session, tool, command text, error text, fix-link target, fix command
and category; an entry whose id differs from the matched error id is
untouched entirely; and the matched entry gets exactly
`awaiting_fix = false` and `linked_fix = the fix id`. -/
theorem C9_update_frame (log : List Event) (error_id fix_id : String) :
    (update_error_awaiting_fix error_id fix_id log).length = log.length
    ∧ (∀ (i : Nat) (e e' : Event), log[i]? = some e →
        (update_error_awaiting_fix error_id fix_id log)[i]? = some e' →
        (e'.type_ = e.type_ ∧ e'.id = e.id ∧ e'.timestamp = e.timestamp
          ∧ e'.session_id = e.session_id ∧ e'.tool = e.tool
          ∧ e'.inputCommand = e.inputCommand ∧ e'.error = e.error
          ∧ e'.linked_error = e.linked_error ∧ e'.command = e.command
          ∧ e'.category = e.category)
        ∧ (e.id ≠ error_id → e' = e)
        ∧ (e.id = error_id → e'.awaiting_fix = false ∧ e'.linked_fix = some fix_id)) := by
  constructor
  · simp [update_error_awaiting_fix]
  · intro i e e' he he'
    have hmap : (update_error_awaiting_fix error_id fix_id log)[i]?
        = (log[i]?).map (fun e =>
            if e.id = error_id then
              { e with awaiting_fix := false, linked_fix := some fix_id }
            else e) := by
      simp [update_error_awaiting_fix]
    rw [hmap, he] at he'
    by_cases hid : e.id = error_id
    · rw [Option.map_some', if_pos hid] at he'
      injection he' with he''
      subst he''
      refine ⟨⟨rfl, rfl, rfl, rfl, rfl, rfl, rfl, rfl, rfl, rfl⟩, ?_, ?_⟩
      · intro hne; exact absurd hid hne
      · intro _; exact ⟨rfl, rfl⟩
    · rw [Option.map_some', if_neg hid] at he'
      injection he' with he''
      subst he''
      refine ⟨⟨rfl, rfl, rfl, rfl, rfl, rfl, rfl, rfl, rfl, rfl⟩, ?_, ?_⟩
      · intro _; rfl
      · intro heq; exact absurd heq hid

/-- C9 witness: on a two-entry log the rewrite keeps length and rewrites
only the matched flags. -/
theorem C9_update_frame_witness :
    (update_error_awaiting_fix "err_tar" "fix_9" [tarEvent, grepEvent]).length
      = ([tarEvent, grepEvent] : List Event).length
    ∧ ({ tarEvent with awaiting_fix := false, linked_fix := some "fix_9" } : Event).awaiting_fix
        = false
    ∧ ({ tarEvent with awaiting_fix := false, linked_fix := some "fix_9" } : Event).linked_fix
        = some "fix_9" := by
  have h := C9_update_frame [tarEvent, grepEvent] "err_tar" "fix_9"
  refine ⟨h.1, ?_⟩
  exact (h.2 0 tarEvent
    { tarEvent with awaiting_fix := false, linked_fix := some "fix_9" }
    (by decide) (by decide)).2.2 rfl

/-! ### C7: fix-detection pairing -/

/-- C7.  When the most recent error of the log awaits a fix from the same
session and tool, the command is non-empty, no failure indicator occurs
in the response text, tracking is on and the generated fix id is fresh,
the tracker appends exactly one fix event linked to that error and
rewrites the log so that error is no longer awaiting; when the error is
not awaiting, or the session or tool differs, or a failure indicator is
present, the log is returned unchanged. -/
theorem C7_fix_pairing (track : Bool) (d : FTInput) (fix_id timestamp : String)
    (log : List Event) :
    (∀ le : Event, get_last_error log = some le →
      le.awaiting_fix = true → le.session_id = d.session_id → le.tool = d.tool_name →
      d.command ≠ "" →
      error_indicators.any (fun ind => strContains ind d.response_text) = false →
      track = true → le.id ≠ fix_id →
      fixTrackerMain track (.ok d) fix_id timestamp log
        = update_error_awaiting_fix le.id fix_id log
            ++ [mkFixEvent fix_id timestamp d le.id])
    ∧ (error_indicators.any (fun ind => strContains ind d.response_text) = true →
        fixTrackerMain track (.ok d) fix_id timestamp log = log)
    ∧ (∀ le : Event, get_last_error log = some le → le.awaiting_fix = false →
        fixTrackerMain track (.ok d) fix_id timestamp log = log)
    ∧ (∀ le : Event, get_last_error log = some le → le.session_id ≠ d.session_id →
        fixTrackerMain track (.ok d) fix_id timestamp log = log)
    ∧ (∀ le : Event, get_last_error log = some le →
        le.awaiting_fix = true → le.session_id = d.session_id →
        le.tool ≠ d.tool_name →
        fixTrackerMain track (.ok d) fix_id timestamp log = log) := by
  refine ⟨?_, ?_, ?_, ?_, ?_⟩
  · intro le hle hawait hsess htool hcmd hind htrack hfresh
    have hupd : update_error_awaiting_fix le.id fix_id
        (log ++ [mkFixEvent fix_id timestamp d le.id])
        = update_error_awaiting_fix le.id fix_id log
            ++ [mkFixEvent fix_id timestamp d le.id] := by
      unfold update_error_awaiting_fix
      rw [List.map_append]
      congr 1
      simp only [List.map_cons, List.map_nil, mkFixEvent]
      rw [if_neg (fun he => hfresh he.symm)]
    subst htrack
    simp [fixTrackerMain, hind, hcmd, hle, hawait, hsess, htool, hupd]
  · intro hind
    cases track <;> simp [fixTrackerMain, hind]
  · intro le hle hawait
    cases track with
    | false => simp [fixTrackerMain]
    | true =>
      by_cases hind : error_indicators.any (fun ind => strContains ind d.response_text)
      · simp [fixTrackerMain, hind]
      · by_cases hcmd : d.command = ""
        · simp [fixTrackerMain, hind, hcmd]
        · simp [fixTrackerMain, hind, hcmd, hle, hawait]
  · intro le hle hsess
    cases track with
    | false => simp [fixTrackerMain]
    | true =>
      by_cases hind : error_indicators.any (fun ind => strContains ind d.response_text)
      · simp [fixTrackerMain, hind]
      · by_cases hcmd : d.command = ""
        · simp [fixTrackerMain, hind, hcmd]
        · by_cases hawait : le.awaiting_fix
          · simp [fixTrackerMain, hind, hcmd, hle, hawait, hsess]
          · simp [fixTrackerMain, hind, hcmd, hle, hawait]
  · intro le hle hawait hsess htool
    cases track with
    | false => simp [fixTrackerMain]
    | true =>
      by_cases hind : error_indicators.any (fun ind => strContains ind d.response_text)
      · simp [fixTrackerMain, hind]
      · by_cases hcmd : d.command = ""
        · simp [fixTrackerMain, hind, hcmd]
        · simp [fixTrackerMain, hind, hcmd, hle, hawait, hsess, htool]

/-- C7 witness: after `tar --zelda` fails, a clean `tar -tf` response from
the same session and tool is recorded as its fix and the error stops
awaiting. -/
theorem C7_fix_pairing_witness :
    fixTrackerMain true (.ok ⟨"Bash", "tar -tf file.tar", "ok", "s1"⟩)
        "fix_9" "2025-06-01T10:01:00Z" [tarEvent]
      = update_error_awaiting_fix "err_tar" "fix_9" [tarEvent]
          ++ [mkFixEvent "fix_9" "2025-06-01T10:01:00Z"
              ⟨"Bash", "tar -tf file.tar", "ok", "s1"⟩ "err_tar"] := by
  have h := (C7_fix_pairing true ⟨"Bash", "tar -tf file.tar", "ok", "s1"⟩
      "fix_9" "2025-06-01T10:01:00Z" [tarEvent]).1 tarEvent
      (by decide) rfl rfl rfl (by decide) (by decide) rfl (by decide)
  exact h

/-! ### C6: threshold gating of automatic curation -/

/-- Every rule the generator emits has the signature as its id. -/
theorem generate_id (signature : String) (data : Group) (r : Rule)
    (h : generate_learned_pattern signature data = some r) : r.id = signature := by
  simp only [generate_learned_pattern] at h
  repeat' split at h
  all_goals
    first
    | (injection h with h'; subst h'; rfl)
    | simp at h

/-- Rules contributed by one signature group during auto-curation. -/
def pickRule (existing : List String) (threshold : Int) (sg : String × Group) :
    List Rule :=
  if existing.contains sg.1 then []
  else if threshold ≤ (sg.2.errors.length : Int) then
    match generate_learned_pattern sg.1 sg.2 with
    | none => []
    | some p => [p]
  else []

/-- Signatures recorded as added for one signature group. -/
def pickSig (existing : List String) (threshold : Int) (sg : String × Group) :
    List String :=
  if existing.contains sg.1 then []
  else if threshold ≤ (sg.2.errors.length : Int) then
    match generate_learned_pattern sg.1 sg.2 with
    | none => []
    | some _ => [sg.1]
  else []

theorem auto_curate_core_eq (hashFn : String → Nat) (threshold : Int)
    (entries : List Event) (learned : List Rule) :
    auto_curate_core hashFn threshold entries learned
      = (learned
          ++ ((analyze_error_patterns hashFn entries).map
              (pickRule (learned.map (·.id)) threshold)).flatten,
         ((analyze_error_patterns hashFn entries).map
              (pickSig (learned.map (·.id)) threshold)).flatten) := by
  unfold auto_curate_core
  generalize (analyze_error_patterns hashFn entries) = grouped
  generalize hex : (learned.map (fun r => r.id)) = existing
  suffices hgen : ∀ (l : List (String × Group)) (acc : List Rule × List String),
      l.foldl
        (fun acc sg =>
          if existing.contains sg.1 then acc
          else if threshold ≤ (sg.2.errors.length : Int) then
            match generate_learned_pattern sg.1 sg.2 with
            | none => acc
            | some p => (acc.1 ++ [p], acc.2 ++ [sg.1])
          else acc)
        acc
      = (acc.1 ++ (l.map (pickRule existing threshold)).flatten,
         acc.2 ++ (l.map (pickSig existing threshold)).flatten) by
    simpa using hgen grouped (learned, [])
  intro l
  induction l with
  | nil => intro acc; simp
  | cons sg rest ih =>
    intro acc
    rw [List.foldl_cons, ih]
    by_cases hex1 : sg.1 ∈ existing
    · simp [pickRule, pickSig, hex1]
    · by_cases hth : threshold ≤ (sg.2.errors.length : Int)
      · cases hg : generate_learned_pattern sg.1 sg.2 with
        | none => simp [pickRule, pickSig, hex1, hth, hg]
        | some p => simp [pickRule, pickSig, hex1, hth, hg]
      · simp [pickRule, pickSig, hex1, hth]

/-- Keys of a `groupUpdate`: unchanged when the key exists, appended
otherwise. -/
theorem groupUpdate_keys (sig : String) (f : Group → Group) :
    ∀ gs : List (String × Group),
      (groupUpdate sig f gs).map Prod.fst
        = if sig ∈ gs.map Prod.fst then gs.map Prod.fst
          else gs.map Prod.fst ++ [sig] := by
  intro gs
  induction gs with
  | nil => simp [groupUpdate]
  | cons kv rest ih =>
    by_cases hk : kv.1 = sig
    · have : groupUpdate sig f (kv :: rest) = (kv.1, f kv.2) :: rest := by
        cases kv; simp [groupUpdate, hk] at hk ⊢; simp [hk]
      simp [this, hk]
    · have : groupUpdate sig f (kv :: rest) = kv :: groupUpdate sig f rest := by
        cases kv; simp only [groupUpdate]; rw [if_neg (by simpa using hk)]
      rw [this]
      simp only [List.map_cons, ih]
      have hne : ¬ sig = kv.1 := fun h => hk h.symm
      by_cases hmem : sig ∈ rest.map Prod.fst
      · simp [hmem, hne]
      · simp [hmem, hne]

/-- Key-uniqueness is preserved by `groupUpdate`. -/
theorem groupUpdate_nodup (sig : String) (f : Group → Group)
    (gs : List (String × Group)) (h : (gs.map Prod.fst).Nodup) :
    ((groupUpdate sig f gs).map Prod.fst).Nodup := by
  rw [groupUpdate_keys]
  by_cases hmem : sig ∈ gs.map Prod.fst
  · simpa [hmem] using h
  · simp only [hmem, if_false]
    exact h.append (List.nodup_singleton sig)
      (fun a ha hb => hmem (by rwa [List.mem_singleton.mp hb] at ha))

/-- The grouping produced by `analyze_error_patterns` has pairwise
distinct signatures. -/
theorem analyze_keys_nodup (hashFn : String → Nat) (entries : List Event) :
    ((analyze_error_patterns hashFn entries).map Prod.fst).Nodup := by
  unfold analyze_error_patterns
  generalize pair_errors_with_fixes entries = paired
  suffices hgen : ∀ (l : List (String × (Event × Option Event)))
      (gs : List (String × Group)), (gs.map Prod.fst).Nodup →
      ((l.foldl
        (fun g p =>
          match extract_error_signature hashFn p.2.1 with
          | none => g
          | some sig =>
            groupUpdate sig
              (fun gr =>
                { errors := gr.errors ++ [p.2.1]
                  fixes := gr.fixes
                    ++ (match p.2.2 with | some fx => [fx] | none => [])
                  commands := gr.commands ++ [p.2.1.inputCommand]
                  fix_commands := gr.fix_commands
                    ++ (match p.2.2 with | some fx => [fx.command] | none => []) })
              g) gs).map Prod.fst).Nodup by
    exact hgen paired [] (by simp)
  intro l
  induction l with
  | nil => intro gs h; exact h
  | cons p rest ih =>
    intro gs h
    simp only [List.foldl_cons]
    cases hsig : extract_error_signature hashFn p.2.1 with
    | none => exact ih gs h
    | some sig => exact ih _ (groupUpdate_nodup sig _ gs h)

/-- In a list with pairwise distinct keys, a key determines its value. -/
theorem value_unique_of_nodup_keys {β : Type} :
    ∀ (l : List (String × β)), (l.map Prod.fst).Nodup →
      ∀ (k : String) (a b : β), (k, a) ∈ l → (k, b) ∈ l → a = b := by
  intro l
  induction l with
  | nil => intro _ k a b ha _; exact absurd ha (List.not_mem_nil _)
  | cons kv rest ih =>
    intro h k a b ha hb
    have hnd : (rest.map Prod.fst).Nodup := (List.nodup_cons.mp h).2
    have hout : kv.1 ∉ rest.map Prod.fst := (List.nodup_cons.mp h).1
    rcases List.mem_cons.mp ha with rfl | ha'
    · rcases List.mem_cons.mp hb with hb1 | hb'
      · exact congrArg Prod.snd hb1.symm
      · exact absurd (List.mem_map.mpr ⟨(k, b), hb', rfl⟩) hout
    · rcases List.mem_cons.mp hb with rfl | hb'
      · exact absurd (List.mem_map.mpr ⟨(k, a), ha', rfl⟩) hout
      · exact ih hnd k a b ha' hb'

/-- Membership in a group's contributed signatures forces the gating
conditions. -/
theorem mem_pickSig (existing : List String) (threshold : Int)
    (sg : String × Group) (s : String) (h : s ∈ pickSig existing threshold sg) :
    s = sg.1 ∧ existing.contains sg.1 = false
      ∧ threshold ≤ (sg.2.errors.length : Int) := by
  simp only [pickSig] at h
  split at h
  · exact absurd h (List.not_mem_nil _)
  · rename_i hnotex
    split at h
    · rename_i hth
      split at h
      · exact absurd h (List.not_mem_nil _)
      · exact ⟨List.mem_singleton.mp h, by simpa using hnotex, hth⟩
    · exact absurd h (List.not_mem_nil _)

/-- Ids of the rules contributed by a group are its recorded signatures. -/
theorem pickRule_map_id (existing : List String) (threshold : Int)
    (sg : String × Group) :
    (pickRule existing threshold sg).map (·.id) = pickSig existing threshold sg := by
  simp only [pickRule, pickSig]
  split
  · rfl
  · split
    · cases hg : generate_learned_pattern sg.1 sg.2 with
      | none => rfl
      | some p => simp [generate_id sg.1 sg.2 p hg]
    · rfl

/-- C6.  Automatic curation appends a rule for signature `G` only when
`G` is not already an id in the learned pack and `G`'s error count in
the log is at least the threshold; a group whose count is `threshold−1`
is never added; and the new learned pack is exactly the old one plus
rules whose ids are the recorded added signatures. -/
theorem C6_threshold_gating (hashFn : String → Nat) (threshold : Int)
    (entries : List Event) (learned : List Rule) :
    (∀ sig ∈ (auto_curate_core hashFn threshold entries learned).2,
      (learned.map (·.id)).contains sig = false
      ∧ ∃ data, (sig, data) ∈ analyze_error_patterns hashFn entries
          ∧ threshold ≤ (data.errors.length : Int))
    ∧ (∀ (sig : String) (data : Group),
        (sig, data) ∈ analyze_error_patterns hashFn entries →
        (data.errors.length : Int) = threshold - 1 →
        sig ∉ (auto_curate_core hashFn threshold entries learned).2)
    ∧ (∃ extra : List Rule,
        (auto_curate_core hashFn threshold entries learned).1 = learned ++ extra
        ∧ extra.map (·.id) = (auto_curate_core hashFn threshold entries learned).2) := by
  rw [auto_curate_core_eq]
  refine ⟨?_, ?_, ?_⟩
  · intro sig hsig
    simp only [List.mem_flatten, List.mem_map] at hsig
    obtain ⟨sl, ⟨sg, hsg, rfl⟩, hmem⟩ := hsig
    obtain ⟨rfl, hnotex, hth⟩ := mem_pickSig _ _ sg sig hmem
    exact ⟨hnotex, sg.2, by simpa using hsg, hth⟩
  · intro sig data hmem hcount hsig
    simp only [List.mem_flatten, List.mem_map] at hsig
    obtain ⟨sl, ⟨sg, hsg, rfl⟩, hin⟩ := hsig
    obtain ⟨rfl, hnotex, hth⟩ := mem_pickSig _ _ sg sig hin
    have hdata : sg.2 = data := by
      have hnd := analyze_keys_nodup hashFn entries
      exact value_unique_of_nodup_keys _ hnd sg.1 sg.2 data
        (by simpa using hsg) hmem
    rw [hdata] at hth
    omega
  · refine ⟨((analyze_error_patterns hashFn entries).map
        (pickRule (learned.map (·.id)) threshold)).flatten, rfl, ?_⟩
    rw [List.map_flatten, List.map_map]
    have hfun : (List.map (fun r : Rule => r.id))
          ∘ pickRule (learned.map (fun r : Rule => r.id)) threshold
        = pickSig (learned.map (fun r : Rule => r.id)) threshold :=
      funext (fun sg =>
        pickRule_map_id (learned.map (fun r : Rule => r.id)) threshold sg)
    rw [hfun]

/-- C6 witness: with threshold 2, a signature seen once (2−1 times) is
not auto-curated. -/
theorem C6_threshold_gating_witness :
    "cmd_not_found_rm" ∉
      (auto_curate_core (fun _ => 0) 2
        [{ tarEvent with
            id := "err_rm"
            inputCommand := "rm -rf build"
            error := "bash: rm: command not found" }] []).2 := by
  exact (C6_threshold_gating (fun _ => 0) 2
      [{ tarEvent with
          id := "err_rm"
          inputCommand := "rm -rf build"
          error := "bash: rm: command not found" }] []).2.1
    "cmd_not_found_rm"
    { errors := [{ tarEvent with
        id := "err_rm"
        inputCommand := "rm -rf build"
        error := "bash: rm: command not found" }]
      fixes := [], commands := ["rm -rf build"], fix_commands := [] }
    (by decide) (by decide)

end ErrorLearning
